import Mathlib

/-!
Verification of the healix batch join-and-report pipeline.

The repository holds two scripts, create_combined_dataset.py and
merge_claims_policies.py.  Each loads a claims table and a policy table
from a SQLite store, left-joins them with pandas merge on
insurance_provider = provider_name, optionally projects and augments the
result, persists it back to the store (replacing any prior table) and to a
CSV file, and prints statistics.  This file embeds the parts of that
behaviour that the stated properties are about: relations as ordered
column lists with rows of optional string cells, the pandas left merge,
the bracket projection, the added policy_id column, the store writes, the
join diagnostics, and the control flow (connection lifetime, early
returns) of each script run.
-/

namespace Healix

/-- A cell of a relation: a string value, or none for SQL NULL (pandas
NaN/None). -/
abbrev Cell := Option String

/-- An in-memory relation as pandas sees it: named columns in order, rows
in storage order. -/
structure Relation where
  cols : List String
  rows : List (List Cell)
deriving DecidableEq

/-- Index of the first column with the given name. -/
def colIdx (cols : List String) (c : String) : Option Nat :=
  match cols with
  | [] => none
  | c0 :: rest => if c0 = c then some 0 else (colIdx rest c).map (· + 1)

/-- Value of the named column in a row (none when the column is absent). -/
def cellOf (cols : List String) (row : List Cell) (c : String) : Cell :=
  match colIdx cols c with
  | some i => row.getD i none
  | none => none

/-- The rows of the right (policy) relation whose join-key cell equals the
given key.  pandas merge matches equal key values, and it also matches
null keys to each other (NaN/None keys join with NaN/None, unlike SQL), so
the key test is plain equality of optional values. -/
def matchingRows (P : Relation) (rk : String) (k : Cell) : List (List Cell) :=
  P.rows.filter (fun rrow => cellOf P.cols rrow rk == k)

/-- Output rows that one left (claims) row contributes to the pandas left
merge: one row per matching policy row, in the policy table order, or a
single row padded with nulls when no policy row matches. -/
def mergeOne (Ccols : List String) (P : Relation) (lk rk : String)
    (lrow : List Cell) : List (List Cell) :=
  match matchingRows P rk (cellOf Ccols lrow lk) with
  | [] => [lrow ++ List.replicate P.cols.length none]
  | ms => ms.map (fun rrow => lrow ++ rrow)

/-- pandas left outer merge, as called in both scripts:
claims_df.merge(policy_df, left_on, right_on, how="left").  All left
columns come first, then all right columns; left rows keep their order;
the column names of the two tables are disjoint in this schema, so no
suffixing happens. -/
def merge (C P : Relation) (lk rk : String) : Relation :=
  { cols := C.cols ++ P.cols
  , rows := (C.rows.map (mergeOne C.cols P lk rk)).flatten }

/-- Projection allow-list of create_combined_dataset.py (final_columns in
the source): all claims columns followed by the requested policy columns. -/
def final_columns : List String :=
  ["claim_id", "patient_hash", "age", "gender", "blood_type",
   "medical_condition", "admission_year_month", "admission_type",
   "length_of_stay_days", "discharge_date", "medication", "test_results",
   "insurance_provider", "billing_amount", "created_at",
   "provider_id", "plan_type", "coverage_percentage", "max_coverage_amount",
   "copay_percentage", "deductible_amount", "annual_out_of_pocket_max",
   "excluded_conditions", "medication_coverage", "diagnostic_test_coverage",
   "admission_type_rules", "waiting_period",
   "pre_existing_condition_coverage", "network_coverage",
   "emergency_coverage", "preventive_care_coverage", "data_source"]

/-- pandas bracket selection, combined_df[final_columns] in the source: it
raises KeyError when any requested column is missing from the frame, and
otherwise returns exactly the requested columns in the requested order. -/
def project (wanted : List String) (r : Relation) : Except String Relation :=
  if wanted.all (fun c => r.cols.contains c) then
    .ok { cols := wanted
        , rows := r.rows.map (fun row => wanted.map (cellOf r.cols row)) }
  else .error "KeyError: requested columns not in index"

/-- Column assignment final_df[new] = final_df[old] for a new column name:
appends a column whose cell in each row copies the named source column. -/
def addColumn (r : Relation) (newCol fromCol : String) : Relation :=
  { cols := r.cols ++ [newCol]
  , rows := r.rows.map (fun row => row ++ [cellOf r.cols row fromCol]) }

/-- The dataframe transform of create_combined_dataset.py: left merge of
claims with policies on insurance_provider = provider_name, bracket
projection to final_columns, then the added policy_id column copying
provider_id. -/
def combineClaimsPolicies (claims_df policy_df : Relation) : Except String Relation :=
  match project final_columns
      (merge claims_df policy_df "insurance_provider" "provider_name") with
  | .error e => .error e
  | .ok proj => .ok (addColumn proj "policy_id" "provider_id")

/-- The SQLite store as a name-to-relation association in insertion
order. -/
abbrev Store := List (String × Relation)

/-- Read a table by name, as pd.read_sql_query of SELECT * FROM it. -/
def getTable (s : Store) (n : String) : Option Relation :=
  match s.find? (fun p => p.1 == n) with
  | some p => some p.2
  | none => none

/-- Write a table by name with to_sql and if_exists="replace": any prior
table of that name is dropped and fully replaced. -/
def setTable (s : Store) (n : String) (r : Relation) : Store :=
  s.filter (fun p => p.1 != n) ++ [(n, r)]

/-- One run of create_combined_dataset.py as a store transform: load
claims_table and policy_table, build the combined dataset, and save it as
claims_with_policy_rules; when a load or the transform fails the script
returns without writing anything. -/
def runCreateStore (s : Store) : Store :=
  match getTable s "claims_table", getTable s "policy_table" with
  | some c, some p =>
    match combineClaimsPolicies c p with
    | .ok f => setTable s "claims_with_policy_rules" f
    | .error _ => s
  | _, _ => s

/-- One run of merge_claims_policies.py as a store transform: load
healthcare_claims and policy_table and save their raw merge as
merged_claims_policies. -/
def runMergeStore (s : Store) : Store :=
  match getTable s "healthcare_claims", getTable s "policy_table" with
  | some c, some p =>
    setTable s "merged_claims_policies"
      (merge c p "insurance_provider" "provider_name")
  | _, _ => s

/-- Distinct values of a column, as set(df[col].unique()) in the source. -/
def uniqueVals (r : Relation) (c : String) : List Cell :=
  (r.rows.map (fun row => cellOf r.cols row c)).dedup

/-- What step 3 of create_combined_dataset.py computes and prints: the
common providers and the set differences between the two provider sets. -/
structure DiagCreate where
  commonProviders : List Cell
  claimsWithoutPolicies : List Cell
  policiesWithoutClaims : List Cell
deriving DecidableEq

/-- The join-compatibility diagnostics of create_combined_dataset.py. -/
def diagnosticsCreate (claims_df policy_df : Relation) : DiagCreate :=
  let cp := uniqueVals claims_df "insurance_provider"
  let pp := uniqueVals policy_df "provider_name"
  { commonProviders := cp.filter (fun x => pp.contains x)
  , claimsWithoutPolicies := cp.filter (fun x => !pp.contains x)
  , policiesWithoutClaims := pp.filter (fun x => !cp.contains x) }

/-- What the provider-matching block of merge_claims_policies.py computes
and prints: the sizes of the two provider sets and of their
intersection. -/
def diagnosticsMergeCounts (claims_df policy_df : Relation) : Nat × Nat × Nat :=
  let cp := uniqueVals claims_df "insurance_provider"
  let pp := uniqueVals policy_df "provider_name"
  (cp.length, pp.length, (cp.filter (fun x => pp.contains x)).length)

/-- Stated from the claim wording, for comparison with what the source
diagnostics compute: the number of right-side key values that have more
than one policy row. -/
def countMultiRowKeys (P : Relation) (rk : String) : Nat :=
  ((uniqueVals P rk).filter (fun k => 1 < (matchingRows P rk k).length)).length

/-- Which steps of a run succeed: the database file existing, the two
table loads, the bracket projection, the to_sql save and the to_csv save.
sqlite3.connect on a file path succeeds whether or not the file exists
(SQLite creates a missing file), so connecting is not a failure point. -/
structure RunEnv where
  dbExists : Bool
  loadClaimsOk : Bool
  loadPolicyOk : Bool
  projectOk : Bool
  saveSqlOk : Bool
  saveCsvOk : Bool
deriving DecidableEq, Fintype

/-- Observable outcome of a run: whether a store connection was ever
acquired, whether it is still open when the run terminates, which outputs
were produced, and whether an exception escaped main. -/
structure RunExit where
  connAcquired : Bool
  connOpen : Bool
  tableWritten : Bool
  csvWritten : Bool
  raised : Bool
deriving DecidableEq

/-- Control flow of create_combined_dataset.main: connect, load both
tables inside a try whose except prints and returns, project outside any
try (a KeyError there escapes main), save to SQLite inside a try whose
except prints and returns, save to CSV inside a try that continues on
error, and only then conn.close().  There is no finally block, so the two
early returns and an escaping exception all leave the connection open. -/
def runCreateExit (env : RunEnv) : RunExit :=
  if !env.loadClaimsOk || !env.loadPolicyOk then
    { connAcquired := true, connOpen := true, tableWritten := false
    , csvWritten := false, raised := false }
  else if !env.projectOk then
    { connAcquired := true, connOpen := true, tableWritten := false
    , csvWritten := false, raised := true }
  else if !env.saveSqlOk then
    { connAcquired := true, connOpen := true, tableWritten := false
    , csvWritten := false, raised := false }
  else
    { connAcquired := true, connOpen := false, tableWritten := true
    , csvWritten := env.saveCsvOk, raised := false }

/-- Control flow of merge_claims_policies.main: return before connecting
when the database file is missing; otherwise every step runs inside one
try with an except that swallows errors and a finally that closes the
connection, so no such path ends with the connection open.  This script
has no bracket projection, so the projectOk flag does not affect it. -/
def runMergeExit (env : RunEnv) : RunExit :=
  if !env.dbExists then
    { connAcquired := false, connOpen := false, tableWritten := false
    , csvWritten := false, raised := false }
  else
    { connAcquired := true, connOpen := false
    , tableWritten := env.loadClaimsOk && env.loadPolicyOk && env.saveSqlOk
    , csvWritten := env.loadClaimsOk && env.loadPolicyOk && env.saveSqlOk
        && env.saveCsvOk
    , raised := false }

/-- Result of the configurable pipeline: the output relation and the
dataset mode tag. -/
structure ModeResult where
  output : Relation
  modeTag : String
deriving DecidableEq

/-- Modelled from the spec: the claims-only degraded mode of the pipeline.
The spec describes a pipeline variant, not present under src, that treats
the policy table as optional behind a require_policy flag; when the policy
table is absent and claims-only mode is enabled the run does not abort,
the output relation is the claims relation unmodified, and the dataset
mode tag is claims_only.  With both tables present it joins them as the
two src scripts do. -/
def runWithOptionalPolicy (s : Store) (require_policy : Bool) : Option ModeResult :=
  match getTable s "claims_table" with
  | none => none
  | some c =>
    match getTable s "policy_table" with
    | some p => some { output := merge c p "insurance_provider" "provider_name"
                     , modeTag := "combined" }
    | none =>
      if require_policy then none
      else some { output := c, modeTag := "claims_only" }

/-- Demo claims relation with a matched and an unmatched provider. -/
def claimsB : Relation :=
  { cols := ["claim_id", "insurance_provider"]
  , rows := [[some "1", some "Aetna"], [some "2", some "UnitedHealth"]] }

/-- Demo policy relation with a single Aetna row. -/
def policyB : Relation :=
  { cols := ["provider_name", "plan_type"]
  , rows := [[some "Aetna", some "HMO"]] }

/-- Demo claims relation whose provider differs from the policy relation
only in casing. -/
def claimsLower : Relation :=
  { cols := ["insurance_provider"], rows := [[some "aetna"]] }

/-- Demo policy relation with one Cigna row. -/
def policyOneCigna : Relation :=
  { cols := ["provider_name", "plan_type"]
  , rows := [[some "Cigna", some "HMO"]] }

/-- Demo policy relation with two Cigna rows of different plan types. -/
def policyTwoCigna : Relation :=
  { cols := ["provider_name", "plan_type"]
  , rows := [[some "Cigna", some "HMO"], [some "Cigna", some "PPO"]] }

/-- Demo relation with a single column a. -/
def relA : Relation := { cols := ["a"], rows := [[some "1"]] }

/-- Demo relation with columns a and b. -/
def relAB : Relation :=
  { cols := ["a", "b"], rows := [[some "1", some "2"]] }

/-- Demo claims relation with the full claims schema of
create_combined_dataset.py. -/
def claimsFull : Relation :=
  { cols := ["claim_id", "patient_hash", "age", "gender", "blood_type",
      "medical_condition", "admission_year_month", "admission_type",
      "length_of_stay_days", "discharge_date", "medication", "test_results",
      "insurance_provider", "billing_amount", "created_at"]
  , rows := [[some "c1", some "p1", some "40", some "F", some "O+",
      some "Diabetes", some "2024-01", some "Urgent",
      some "3", some "2024-01-10", some "Insulin", some "Normal",
      some "Aetna", some "1200.50", some "2024-01-01"]] }

/-- Demo policy relation with the full policy schema of
create_combined_dataset.py. -/
def policyFull : Relation :=
  { cols := ["provider_name", "provider_id", "plan_type",
      "coverage_percentage", "max_coverage_amount", "copay_percentage",
      "deductible_amount", "annual_out_of_pocket_max", "excluded_conditions",
      "medication_coverage", "diagnostic_test_coverage",
      "admission_type_rules", "waiting_period",
      "pre_existing_condition_coverage", "network_coverage",
      "emergency_coverage", "preventive_care_coverage", "data_source"]
  , rows := [[some "Aetna", some "PR1", some "HMO", some "80", some "100000",
      some "20", some "500", some "6000", some "ListA",
      some "Full", some "Full", some "All", some "30",
      some "Partial", some "In", some "Yes", some "Yes", some "seed"]] }

/-- The combined dataset built from the demo inputs by the embedded
create_combined_dataset transform. -/
def finalFull : Relation :=
  match combineClaimsPolicies claimsFull policyFull with
  | .ok r => r
  | .error _ => { cols := [], rows := [] }

/-- Demo store holding only a claims table. -/
def storeClaimsOnly : Store := [("claims_table", claimsB)]

/-- Demo run environment where only the policy-table load fails. -/
def envPolicyLoadFails : RunEnv :=
  { dbExists := true, loadClaimsOk := true, loadPolicyOk := false
  , projectOk := true, saveSqlOk := true, saveCsvOk := true }

/-- Demo run environment with a missing database file. -/
def envNoDb : RunEnv :=
  { dbExists := false, loadClaimsOk := false, loadPolicyOk := false
  , projectOk := false, saveSqlOk := false, saveCsvOk := false }

/-! Helper lemmas about column lookup. -/

theorem colIdx_append_of_mem (l1 l2 : List String) (c : String) (h : c ∈ l1) :
    colIdx (l1 ++ l2) c = colIdx l1 c := by
  induction l1 with
  | nil => cases h
  | cons a t ih =>
    by_cases hac : a = c
    · simp [colIdx, hac]
    · rcases List.mem_cons.mp h with h1 | h2
      · exact absurd h1.symm hac
      · simp [colIdx, hac, ih h2]

theorem colIdx_lt_of_eq_some {l : List String} {c : String} {i : Nat}
    (h : colIdx l c = some i) : i < l.length := by
  induction l generalizing i with
  | nil => simp [colIdx] at h
  | cons a t ih =>
    by_cases hac : a = c
    · simp [colIdx, hac] at h
      simp only [List.length_cons]
      omega
    · simp [colIdx, hac] at h
      obtain ⟨j, hj, rfl⟩ := h
      have := ih hj
      simp only [List.length_cons]
      omega

theorem colIdx_isSome_of_mem {l : List String} {c : String} (h : c ∈ l) :
    ∃ i, colIdx l c = some i := by
  induction l with
  | nil => cases h
  | cons a t ih =>
    by_cases hac : a = c
    · exact ⟨0, by simp [colIdx, hac]⟩
    · rcases List.mem_cons.mp h with h1 | h2
      · exact absurd h1.symm hac
      · obtain ⟨j, hj⟩ := ih h2
        exact ⟨j + 1, by simp [colIdx, hac, hj]⟩

theorem cellOf_of_colIdx_some {cols : List String} {c : String} {i : Nat}
    (h : colIdx cols c = some i) (row : List Cell) :
    cellOf cols row c = row.getD i none := by
  unfold cellOf
  rw [h]

theorem cellOf_append_left (cols1 cols2 : List String) (row1 row2 : List Cell)
    (c : String) (h : c ∈ cols1) (hlen : row1.length = cols1.length) :
    cellOf (cols1 ++ cols2) (row1 ++ row2) c = cellOf cols1 row1 c := by
  obtain ⟨i, hi⟩ := colIdx_isSome_of_mem h
  have hlt : i < row1.length := hlen ▸ colIdx_lt_of_eq_some hi
  have e1 : colIdx (cols1 ++ cols2) c = some i := by
    rw [colIdx_append_of_mem _ _ _ h, hi]
  rw [cellOf_of_colIdx_some e1, cellOf_of_colIdx_some hi,
    List.getD_append row1 row2 none i hlt]

/-! Row counting for the merge (claim C1). -/

theorem length_mergeOne_pos (Ccols : List String) (P : Relation) (lk rk : String)
    (lrow : List Cell) : 1 ≤ (mergeOne Ccols P lk rk lrow).length := by
  unfold mergeOne
  split
  · simp
  · next ms h =>
    have hpos : 0 < (matchingRows P rk (cellOf Ccols lrow lk)).length :=
      List.length_pos.mpr (fun he => h he)
    simp only [List.length_map]
    omega

theorem length_mergeOne_eq_one_iff (Ccols : List String) (P : Relation)
    (lk rk : String) (lrow : List Cell) :
    (mergeOne Ccols P lk rk lrow).length = 1 ↔
      (matchingRows P rk (cellOf Ccols lrow lk)).length ≤ 1 := by
  unfold mergeOne
  split
  · next heq => simp [heq]
  · next ms h =>
    have hpos : 0 < (matchingRows P rk (cellOf Ccols lrow lk)).length :=
      List.length_pos.mpr (fun he => h he)
    simp only [List.length_map]
    omega

theorem mergedRows_length_spec (Ccols : List String) (P : Relation)
    (lk rk : String) (rows : List (List Cell)) :
    rows.length ≤ ((rows.map (mergeOne Ccols P lk rk)).flatten).length ∧
      (((rows.map (mergeOne Ccols P lk rk)).flatten).length = rows.length ↔
        ∀ lrow ∈ rows, (matchingRows P rk (cellOf Ccols lrow lk)).length ≤ 1) := by
  induction rows with
  | nil => simp
  | cons r rs ih =>
    obtain ⟨ih1, ih2⟩ := ih
    have h1 := length_mergeOne_pos Ccols P lk rk r
    have h2 := length_mergeOne_eq_one_iff Ccols P lk rk r
    simp only [List.map_cons, List.flatten_cons, List.length_append,
      List.length_cons, List.forall_mem_cons]
    constructor
    · omega
    · constructor
      · intro he
        refine ⟨h2.mp (by omega), ih2.mp (by omega)⟩
      · rintro ⟨ha, hb⟩
        have := h2.mpr ha
        have := ih2.mpr hb
        omega

/-- C1: for every claims relation C and policy relation P, the left outer
join on insurance_provider = provider_name produces a relation with at
least as many rows as C, with equality exactly when no provider-name key
value occurring in C matches more than one policy row (each extra match
duplicates the claim once per matching policy row). -/
theorem merge_rowcount_ge_and_eq_iff (C P : Relation) (lk rk : String) :
    C.rows.length ≤ (merge C P lk rk).rows.length ∧
    ((merge C P lk rk).rows.length = C.rows.length ↔
      ∀ k : Cell, (∃ lrow ∈ C.rows, cellOf C.cols lrow lk = k) →
        (matchingRows P rk k).length ≤ 1) := by
  obtain ⟨h1, h2⟩ := mergedRows_length_spec C.cols P lk rk C.rows
  refine ⟨h1, h2.trans ?_⟩
  constructor
  · rintro h k ⟨lrow, hm, rfl⟩
    exact h lrow hm
  · intro h lrow hm
    exact h _ ⟨lrow, hm, rfl⟩

/-! Shape of the merged rows (claims C3 and C8). -/

theorem mem_merge_rows {C P : Relation} {lk rk : String} {orow : List Cell}
    (h : orow ∈ (merge C P lk rk).rows) :
    ∃ lrow ∈ C.rows, orow ∈ mergeOne C.cols P lk rk lrow := by
  have h2 : orow ∈ (C.rows.map (mergeOne C.cols P lk rk)).flatten := h
  obtain ⟨l, hl, ho⟩ := List.mem_flatten.mp h2
  obtain ⟨lrow, hm, rfl⟩ := List.mem_map.mp hl
  exact ⟨lrow, hm, ho⟩

theorem mergeOne_shape {Ccols : List String} {P : Relation} {lk rk : String}
    {lrow orow : List Cell} (h : orow ∈ mergeOne Ccols P lk rk lrow) :
    (matchingRows P rk (cellOf Ccols lrow lk) = [] ∧
      orow = lrow ++ List.replicate P.cols.length none) ∨
    (∃ rrow ∈ matchingRows P rk (cellOf Ccols lrow lk), orow = lrow ++ rrow) := by
  unfold mergeOne at h
  split at h
  · next heq =>
    left
    exact ⟨heq, by simpa using h⟩
  · next ms hne =>
    right
    obtain ⟨rrow, hr, rfl⟩ := List.mem_map.mp h
    exact ⟨rrow, hr, rfl⟩

/-- C3: in the left outer join on insurance_provider = provider_name,
every output row whose provider-name key matches no policy row is null in
all policy-sourced positions, and every output row whose key matches
exactly one policy row carries that policy row verbatim in the
policy-sourced positions. -/
theorem merge_unmatched_null_matched_verbatim (C P : Relation) (lk rk : String)
    (hC : ∀ row ∈ C.rows, row.length = C.cols.length)
    (hlk : lk ∈ C.cols) :
    ∀ orow ∈ (merge C P lk rk).rows,
      (matchingRows P rk (cellOf (merge C P lk rk).cols orow lk) = [] →
        orow.drop C.cols.length = List.replicate P.cols.length none) ∧
      (∀ prow, matchingRows P rk (cellOf (merge C P lk rk).cols orow lk) = [prow] →
        orow.drop C.cols.length = prow) := by
  intro orow ho
  obtain ⟨lrow, hm, hone⟩ := mem_merge_rows ho
  have hlen := hC lrow hm
  rcases mergeOne_shape hone with ⟨hnil, rfl⟩ | ⟨rrow, hr, rfl⟩
  · have hkey : cellOf (merge C P lk rk).cols
        (lrow ++ List.replicate P.cols.length none) lk = cellOf C.cols lrow lk :=
      cellOf_append_left C.cols P.cols lrow _ lk hlk hlen
    constructor
    · intro _
      rw [← hlen]
      exact List.drop_left lrow _
    · intro prow hp
      rw [hkey, hnil] at hp
      cases hp
  · have hkey : cellOf (merge C P lk rk).cols (lrow ++ rrow) lk
        = cellOf C.cols lrow lk :=
      cellOf_append_left C.cols P.cols lrow rrow lk hlk hlen
    constructor
    · intro hnone
      rw [hkey] at hnone
      rw [hnone] at hr
      cases hr
    · intro prow hp
      rw [hkey] at hp
      rw [hp] at hr
      have hrw : rrow = prow := by simpa using hr
      rw [← hlen, List.drop_left, hrw]

/-- C3 witness at the demo relations: the unmatched UnitedHealth claim is
padded with nulls and the Aetna claim carries the single matching policy
row verbatim. -/
theorem merge_unmatched_null_matched_verbatim_witness :
    ([some "2", some "UnitedHealth", none, none] : List Cell).drop
        claimsB.cols.length = List.replicate policyB.cols.length none ∧
    ([some "1", some "Aetna", some "Aetna", some "HMO"] : List Cell).drop
        claimsB.cols.length = [some "Aetna", some "HMO"] :=
  ⟨(merge_unmatched_null_matched_verbatim claimsB policyB "insurance_provider"
      "provider_name" (by decide) (by decide)
      [some "2", some "UnitedHealth", none, none] (by decide)).1 (by decide),
   (merge_unmatched_null_matched_verbatim claimsB policyB "insurance_provider"
      "provider_name" (by decide) (by decide)
      [some "1", some "Aetna", some "Aetna", some "HMO"] (by decide)).2
      [some "Aetna", some "HMO"] (by decide)⟩

/-- C8: the join key test is exact string equality with no normalization:
a claim whose insurance_provider value differs from every policy
provider_name value, even only in casing or whitespace, matches no policy
row and is emitted with null policy columns. -/
theorem merge_exact_string_match (C P : Relation) (lk rk : String)
    (lrow : List Cell) (s : String)
    (hmem : lrow ∈ C.rows)
    (hkey : cellOf C.cols lrow lk = some s)
    (hno : ∀ prow ∈ P.rows, cellOf P.cols prow rk ≠ some s) :
    matchingRows P rk (some s) = [] ∧
    lrow ++ List.replicate P.cols.length none ∈ (merge C P lk rk).rows := by
  have hnil : matchingRows P rk (some s) = [] := by
    unfold matchingRows
    apply List.filter_eq_nil_iff.mpr
    intro prow hp hb
    exact hno prow hp (eq_of_beq hb)
  refine ⟨hnil, ?_⟩
  have hone : mergeOne C.cols P lk rk lrow
      = [lrow ++ List.replicate P.cols.length none] := by
    unfold mergeOne
    rw [hkey, hnil]
  show _ ∈ (C.rows.map (mergeOne C.cols P lk rk)).flatten
  exact List.mem_flatten.mpr
    ⟨mergeOne C.cols P lk rk lrow, List.mem_map_of_mem _ hmem,
     by rw [hone]; exact List.mem_singleton_self _⟩

/-- C8 witness: a claim naming aetna in lower case does not match the
policy row naming Aetna, and is emitted with null policy columns. -/
theorem merge_exact_string_match_witness :
    matchingRows policyB "provider_name" (some "aetna") = [] ∧
    [some "aetna"] ++ List.replicate policyB.cols.length none ∈
      (merge claimsLower policyB "insurance_provider" "provider_name").rows :=
  merge_exact_string_match claimsLower policyB "insurance_provider"
    "provider_name" [some "aetna"] "aetna" (by decide) (by decide) (by decide)

/-! Store lemmas for the replace-write (claim C6). -/

theorem find?_filter_ne (s : Store) (n m : String) (hne : m ≠ n) :
    (s.filter (fun p => p.1 != n)).find? (fun p => p.1 == m)
      = s.find? (fun p => p.1 == m) := by
  induction s with
  | nil => rfl
  | cons p t ih =>
    by_cases h1 : p.1 = n
    · have h2 : ¬ (p.1 == m) = true := by
        simp only [beq_iff_eq, h1]
        exact fun he => hne he.symm
      rw [List.filter_cons_of_neg (by simp [h1]), List.find?_cons_of_neg t h2]
      exact ih
    · by_cases h2 : p.1 = m
      · rw [List.filter_cons_of_pos (by simp [h1]),
          List.find?_cons_of_pos _ (by simp [h2]),
          List.find?_cons_of_pos t (by simp [h2])]
      · rw [List.filter_cons_of_pos (by simp [h1]),
          List.find?_cons_of_neg _ (by simp [h2]),
          List.find?_cons_of_neg t (by simp [h2])]
        exact ih

theorem getTable_setTable_self (s : Store) (n : String) (r : Relation) :
    getTable (setTable s n r) n = some r := by
  unfold getTable setTable
  rw [List.find?_append]
  have h : (s.filter (fun p => p.1 != n)).find? (fun p => p.1 == n) = none := by
    apply List.find?_eq_none.mpr
    intro x hx
    have hm := (List.mem_filter.mp hx).2
    simp only [bne_iff_ne, ne_eq, decide_eq_true_eq] at hm
    simpa using hm
  rw [h]
  simp [List.find?]

theorem getTable_setTable_ne (s : Store) (n m : String) (r : Relation)
    (hne : m ≠ n) :
    getTable (setTable s n r) m = getTable s m := by
  unfold getTable setTable
  rw [List.find?_append, find?_filter_ne s n m hne]
  have h2 : [(n, r)].find? (fun p => p.1 == m) = none := by
    apply List.find?_eq_none.mpr
    intro x hx
    have : x = (n, r) := by simpa using hx
    subst this
    simp only [beq_iff_eq]
    exact fun he => hne he.symm
  rw [h2, Option.or_none]

/-- C6: running either script twice on an unchanged store leaves the same
persisted output table content as running it once: the second run fully
replaces the first run output with identical rows. -/
theorem run_twice_same_table (s : Store) :
    getTable (runCreateStore (runCreateStore s)) "claims_with_policy_rules"
      = getTable (runCreateStore s) "claims_with_policy_rules" ∧
    getTable (runMergeStore (runMergeStore s)) "merged_claims_policies"
      = getTable (runMergeStore s) "merged_claims_policies" := by
  constructor
  · cases hc : getTable s "claims_table" with
    | none =>
      have h1 : runCreateStore s = s := by simp [runCreateStore, hc]
      rw [h1, h1]
    | some c =>
      cases hp : getTable s "policy_table" with
      | none =>
        have h1 : runCreateStore s = s := by simp [runCreateStore, hc, hp]
        rw [h1, h1]
      | some p =>
        cases hcp : combineClaimsPolicies c p with
        | error e =>
          have h1 : runCreateStore s = s := by
            simp [runCreateStore, hc, hp, hcp]
          rw [h1, h1]
        | ok f =>
          have h1 : runCreateStore s = setTable s "claims_with_policy_rules" f := by
            simp [runCreateStore, hc, hp, hcp]
          have hc2 : getTable (runCreateStore s) "claims_table" = some c := by
            rw [h1, getTable_setTable_ne _ _ _ _ (by decide), hc]
          have hp2 : getTable (runCreateStore s) "policy_table" = some p := by
            rw [h1, getTable_setTable_ne _ _ _ _ (by decide), hp]
          set t := runCreateStore s with ht
          have h2 : runCreateStore t = setTable t "claims_with_policy_rules" f := by
            simp [runCreateStore, hc2, hp2, hcp]
          rw [h2, getTable_setTable_self, h1, getTable_setTable_self]
  · cases hc : getTable s "healthcare_claims" with
    | none =>
      have h1 : runMergeStore s = s := by simp [runMergeStore, hc]
      rw [h1, h1]
    | some c =>
      cases hp : getTable s "policy_table" with
      | none =>
        have h1 : runMergeStore s = s := by simp [runMergeStore, hc, hp]
        rw [h1, h1]
      | some p =>
        have h1 : runMergeStore s = setTable s "merged_claims_policies"
            (merge c p "insurance_provider" "provider_name") := by
          simp [runMergeStore, hc, hp]
        have hc2 : getTable (runMergeStore s) "healthcare_claims" = some c := by
          rw [h1, getTable_setTable_ne _ _ _ _ (by decide), hc]
        have hp2 : getTable (runMergeStore s) "policy_table" = some p := by
          rw [h1, getTable_setTable_ne _ _ _ _ (by decide), hp]
        set t := runMergeStore s with ht
        have h2 : runMergeStore t = setTable t "merged_claims_policies"
            (merge c p "insurance_provider" "provider_name") := by
          simp [runMergeStore, hc2, hp2]
        rw [h2, getTable_setTable_self, h1, getTable_setTable_self]

/-- C2 counterexample: requesting columns a and b from a relation that only
has column a raises a KeyError instead of silently dropping b, refuting
the claim that absent requested columns are dropped and never cause an
error. -/
theorem project_missing_column_errors :
    project ["a", "b"] relA
      = Except.error "KeyError: requested columns not in index" := by
  rfl

/-- C2 amended: when every requested column is present, the projection
outputs exactly the requested columns in the requested order; when any
requested column is absent, the projection raises a KeyError rather than
dropping it. -/
theorem project_requested_exact (wanted : List String) (r : Relation) :
    (wanted.all (fun c => r.cols.contains c) = true →
      project wanted r = Except.ok
        { cols := wanted
        , rows := r.rows.map (fun row => wanted.map (cellOf r.cols row)) }) ∧
    (wanted.all (fun c => r.cols.contains c) = false →
      project wanted r
        = Except.error "KeyError: requested columns not in index") := by
  constructor
  · intro h
    unfold project
    rw [if_pos h]
  · intro h
    unfold project
    rw [if_neg (by rw [h]; exact Bool.false_ne_true)]

/-- C2 witness: projecting the present columns b and a keeps exactly those
two columns in the requested order, and projecting an absent column
errors. -/
theorem project_requested_exact_witness :
    project ["b", "a"] relAB = Except.ok
      { cols := ["b", "a"]
      , rows := relAB.rows.map (fun row => ["b", "a"].map (cellOf relAB.cols row)) } ∧
    project ["zzz"] relAB
      = Except.error "KeyError: requested columns not in index" :=
  ⟨(project_requested_exact ["b", "a"] relAB).1 (by decide),
   (project_requested_exact ["zzz"] relAB).2 (by decide)⟩

/-- C4: when the policy table is absent from the store, the configurable
pipeline with require_policy disabled does not abort: it degrades to
claims-only mode, the output relation is the claims relation unmodified,
and the dataset mode tag is claims_only. -/
theorem claims_only_mode (s : Store) (c : Relation)
    (hc : getTable s "claims_table" = some c)
    (hp : getTable s "policy_table" = none) :
    runWithOptionalPolicy s false
      = some { output := c, modeTag := "claims_only" } := by
  simp [runWithOptionalPolicy, hc, hp]

/-- C4 witness: on a store holding only the demo claims table, the
pipeline returns the claims relation with the claims_only tag. -/
theorem claims_only_mode_witness :
    runWithOptionalPolicy storeClaimsOnly false
      = some { output := claimsB, modeTag := "claims_only" } :=
  claims_only_mode storeClaimsOnly claimsB (by decide) (by decide)

/-! The added policy_id column (claim C9). -/

theorem colIdx_append_of_not_mem (l1 l2 : List String) (c : String)
    (h : c ∉ l1) :
    colIdx (l1 ++ l2) c = (colIdx l2 c).map (· + l1.length) := by
  induction l1 with
  | nil => cases hcl : colIdx l2 c <;> simp [hcl]
  | cons a t ih =>
    have hac : a ≠ c := by
      intro he
      exact h (he ▸ List.mem_cons_self a t)
    have ht : c ∉ t := fun he => h (List.mem_cons_of_mem _ he)
    cases hcl : colIdx l2 c
    · simp [colIdx, hac, ih ht, hcl]
    · simp [colIdx, hac, ih ht, hcl]
      omega

theorem project_ok_inv {wanted : List String} {r out : Relation}
    (h : project wanted r = Except.ok out) :
    out.cols = wanted ∧
    ∀ row ∈ out.rows, ∃ src, row = wanted.map (cellOf r.cols src) := by
  unfold project at h
  split at h
  · rw [Except.ok.injEq] at h
    subst h
    refine ⟨rfl, ?_⟩
    intro row hrow
    obtain ⟨src, hs, rfl⟩ := List.mem_map.mp hrow
    exact ⟨src, rfl⟩
  · exact Except.noConfusion h

/-- C9: in every row of the combined dataset built by
create_combined_dataset.py, the added policy_id column equals the
provider_id column; for unmatched claims both are null together. -/
theorem policy_id_eq_provider_id (claims_df policy_df final_df : Relation)
    (h : combineClaimsPolicies claims_df policy_df = Except.ok final_df) :
    ∀ row ∈ final_df.rows,
      cellOf final_df.cols row "policy_id"
        = cellOf final_df.cols row "provider_id" := by
  unfold combineClaimsPolicies at h
  split at h
  · exact Except.noConfusion h
  · next proj hproj =>
    rw [Except.ok.injEq] at h
    subst h
    obtain ⟨hcols, hrows⟩ := project_ok_inv hproj
    intro row hrow
    simp only [addColumn] at hrow ⊢
    obtain ⟨src, hsrc, rfl⟩ := List.mem_map.mp hrow
    obtain ⟨orig, horig⟩ := hrows src hsrc
    have hlen : src.length = final_columns.length := by
      rw [horig, List.length_map]
    rw [hcols]
    have hnotP : "policy_id" ∉ final_columns := by decide
    have hmemP : "provider_id" ∈ final_columns := by decide
    have e1 : colIdx (final_columns ++ ["policy_id"]) "policy_id"
        = some final_columns.length := by
      rw [colIdx_append_of_not_mem _ _ _ hnotP]
      simp [colIdx]
    rw [cellOf_of_colIdx_some e1]
    rw [cellOf_append_left final_columns ["policy_id"] src
      [cellOf final_columns src "provider_id"] "provider_id" hmemP hlen]
    rw [← hlen, List.getD_append_right src _ none src.length (le_refl _)]
    simp [hcols]

/-- C9 witness: in the demo combined dataset, the first row has equal
policy_id and provider_id cells. -/
theorem policy_id_eq_provider_id_witness :
    cellOf finalFull.cols (finalFull.rows.getD 0 []) "policy_id"
      = cellOf finalFull.cols (finalFull.rows.getD 0 []) "provider_id" :=
  policy_id_eq_provider_id claimsFull policyFull finalFull (by rfl)
    (finalFull.rows.getD 0 []) (by decide)

/-! Connection lifetime and early returns (claims C5 and C10). -/

/-- C5 counterexample: in create_combined_dataset.py the error path where
the policy-table load fails returns from main without conn.close(), so
that run terminates with the store connection acquired and still open,
refuting the claim that every exit path releases the connection. -/
theorem create_leaks_connection_on_load_error :
    (runCreateExit envPolicyLoadFails).connAcquired = true ∧
    (runCreateExit envPolicyLoadFails).connOpen = true := by
  constructor <;> rfl

/-- C5 amended: merge_claims_policies.py closes its connection on every
exit path (its whole body runs under try/finally), while
create_combined_dataset.py closes it exactly on those runs where both
table loads, the bracket projection and the SQLite save all succeed; its
early error returns and an escaping projection error terminate the run
with the connection still open. -/
theorem connection_release_characterization :
    ∀ env : RunEnv,
      (runMergeExit env).connOpen = false ∧
      ((runCreateExit env).connOpen = false ↔
        (env.loadClaimsOk && env.loadPolicyOk && env.projectOk
          && env.saveSqlOk) = true) := by
  decide

/-- C10: when the database file does not exist, merge_claims_policies.py
returns before opening any store connection and before producing any
output: no table is written, no CSV file is created, and no exception
escapes. -/
theorem merge_missing_db_no_effects (env : RunEnv) (h : env.dbExists = false) :
    runMergeExit env
      = { connAcquired := false, connOpen := false, tableWritten := false
        , csvWritten := false, raised := false } := by
  simp [runMergeExit, h]

/-- C10 witness at the demo environment with a missing database file. -/
theorem merge_missing_db_no_effects_witness :
    runMergeExit envNoDb
      = { connAcquired := false, connOpen := false, tableWritten := false
        , csvWritten := false, raised := false } :=
  merge_missing_db_no_effects envNoDb (by decide)

/-! Join diagnostics (claim C7). -/

/-- C7 counterexample: both scripts print identical diagnostics for two
policy tables that differ in their number of multi-row provider keys, so
the diagnostics stage does not compute or expose the count of right-side
keys that have more than one row. -/
theorem diagnostics_no_multirow_count :
    diagnosticsCreate claimsB policyOneCigna
      = diagnosticsCreate claimsB policyTwoCigna ∧
    diagnosticsMergeCounts claimsB policyOneCigna
      = diagnosticsMergeCounts claimsB policyTwoCigna ∧
    countMultiRowKeys policyOneCigna "provider_name" = 0 ∧
    countMultiRowKeys policyTwoCigna "provider_name" = 1 := by
  decide

/-- C7 amended: the diagnostics stage computes, read-only and without
affecting the join, the left-only provider set, the right-only provider
set and the common provider set (the merge variant prints their sizes);
membership in each set is characterized against the input rows below.  No
count of right-side keys with more than one row is computed. -/
theorem diagnostics_sets_characterization (C P : Relation) (x : Cell) :
    (x ∈ (diagnosticsCreate C P).claimsWithoutPolicies ↔
      ((∃ row ∈ C.rows, cellOf C.cols row "insurance_provider" = x) ∧
        ¬ ∃ row ∈ P.rows, cellOf P.cols row "provider_name" = x)) ∧
    (x ∈ (diagnosticsCreate C P).policiesWithoutClaims ↔
      ((∃ row ∈ P.rows, cellOf P.cols row "provider_name" = x) ∧
        ¬ ∃ row ∈ C.rows, cellOf C.cols row "insurance_provider" = x)) ∧
    (x ∈ (diagnosticsCreate C P).commonProviders ↔
      ((∃ row ∈ C.rows, cellOf C.cols row "insurance_provider" = x) ∧
        ∃ row ∈ P.rows, cellOf P.cols row "provider_name" = x)) := by
  have hmem : ∀ (r : Relation) (c : String),
      x ∈ uniqueVals r c ↔ ∃ row ∈ r.rows, cellOf r.cols row c = x := by
    intro r c
    unfold uniqueVals
    rw [List.mem_dedup, List.mem_map]
  refine ⟨?_, ?_, ?_⟩ <;>
    simp [diagnosticsCreate, List.mem_filter, ← hmem]

end Healix
